import Mathlib

/-!
Verification of the employee-management backend data-access layer.

The definitions below are a shallow embedding of the TypeScript sources:
* `Database.*`   embeds `backend/src/database/index.ts` (the `Database` class
  over SQLite; SQL statements are embedded by their SQLite semantics),
* `EmployeeService.*` embeds `backend/src/services/employeeService.ts`,
* `EmployeeController.*` embeds `backend/src/controllers/employeeController.ts`,
* `Validation.*` embeds `backend/src/middleware/validation.ts`,
* `EmployeeValidator.*` embeds
  `frontend/src/app/utils/validators/employee.validator.ts`.

Machine-level conventions: timestamps (`CURRENT_TIMESTAMP`) are modelled as a
`Nat` clock value passed explicitly to each write operation; JavaScript string
truthiness (`if (searchParams?.query)`) is `truthyStr`; number truthiness is
`truthyNat`; characters are handled at ASCII level (SQLite `LIKE` is
case-insensitive for ASCII letters only, and `String.prototype.toLowerCase`
is modelled on ASCII letters).
-/

/-- A row of the `employees` table created by `initializeTables`:
`id INTEGER PRIMARY KEY AUTOINCREMENT, name TEXT, email TEXT UNIQUE,
position TEXT, phone TEXT, created_at DATETIME, updated_at DATETIME`. -/
structure Employee where
  id : Nat
  name : String
  email : String
  position : String
  phone : String
  created_at : Nat
  updated_at : Nat
deriving Repr, DecidableEq

/-- The table state: rows in insertion order plus the AUTOINCREMENT counter
(ids are never reused after deletion). -/
structure DbState where
  rows : List Employee
  nextId : Nat
deriving Repr, DecidableEq

/-- Storage-level errors surfaced through the Promise rejections of the
`sqlite3` driver: a `UNIQUE constraint failed: employees.email` violation,
or the parse error SQLite raises for an `OFFSET` clause that is not preceded
by a `LIMIT` clause (the SQLite grammar only allows `OFFSET` inside a
`LIMIT` clause). -/
inductive DbError where
  | uniqueEmail
  | offsetWithoutLimit
deriving Repr, DecidableEq

/-- JavaScript truthiness of an optional string: `undefined` and `""` are
falsy, every other string is truthy. -/
def truthyStr : Option String → Bool
  | none => false
  | some s => !(s == "")

/-- JavaScript truthiness of an optional number: `undefined`, `0` (and `NaN`,
which cannot arise for a `Nat`) are falsy. -/
def truthyNat : Option Nat → Bool
  | none => false
  | some n => !(n == 0)

/-- ASCII lower-casing of a single character, as used by SQLite default
`LIKE` (case-insensitive for ASCII `A`-`Z` only). -/
def lowerChar (c : Char) : Char :=
  if 'A' ≤ c ∧ c ≤ 'Z' then Char.ofNat (c.toNat + 32) else c

/-- SQLite `LIKE` pattern matching over character lists: `%` matches any
(possibly empty) sequence (the rest of the pattern must match some suffix
of the string), `_` matches exactly one character, any other pattern
character matches a character with the same ASCII lower-casing. -/
def likeMatch : List Char → List Char → Bool
  | [], s => s.isEmpty
  | p :: ps, s =>
    if p = '%' then
      s.tails.any (fun t => likeMatch ps t)
    else
      match s with
      | [] => false
      | c :: t => (p = '_' || lowerChar p = lowerChar c) && likeMatch ps t

/-- The pattern `` `%${query}%` `` built by `getEmployees` and
`getEmployeeCount`. -/
def likePat (q : String) : List Char :=
  '%' :: (q.data ++ ['%'])

namespace Database

/-- The SQL condition `(name LIKE ? OR email LIKE ? OR phone LIKE ?)` with all
three parameters bound to `` `%${query}%` ``. -/
def likeRow (q : String) (e : Employee) : Bool :=
  likeMatch (likePat q) e.name.data ||
  likeMatch (likePat q) e.email.data ||
  likeMatch (likePat q) e.phone.data

/-- The WHERE clause assembled by `getEmployees` and `getEmployeeCount`:
the LIKE disjunction is added only when `searchParams?.query` is truthy, and
`position = ?` only when `searchParams?.position` is truthy; the two
conditions are joined with AND. -/
def rowMatches (query pos : Option String) (e : Employee) : Bool :=
  (if truthyStr query then likeRow (query.getD "") e else true) &&
  (if truthyStr pos then e.position == pos.getD "" else true)

/-- Insertion step of the `ORDER BY created_at DESC` model: a row is placed
after every already-placed row whose `created_at` is at least as large. -/
def insertDesc (r : Employee) : List Employee → List Employee
  | [] => [r]
  | x :: xs => if r.created_at ≤ x.created_at then x :: insertDesc r xs else r :: x :: xs

/-- `ORDER BY created_at DESC` as a deterministic (stable) sort of the rows. -/
def sortRows : List Employee → List Employee
  | [] => []
  | r :: rs => insertDesc r (sortRows rs)

/-- `Database.getEmployees(searchParams)`: builds
`SELECT * FROM employees [WHERE ...] ORDER BY created_at DESC
[LIMIT ?] [OFFSET ?]` and runs it. The `LIMIT` clause is appended only when
`searchParams?.limit` is truthy and the `OFFSET` clause only when
`searchParams?.offset` is truthy; when `OFFSET` is appended without a
preceding `LIMIT`, SQLite rejects the statement with a parse error and the
promise rejects. -/
def getEmployees (st : DbState) (query pos : Option String)
    (limit offset : Option Nat) : Except DbError (List Employee) :=
  let ordered := sortRows (st.rows.filter (rowMatches query pos))
  if truthyNat limit then
    if truthyNat offset then
      Except.ok ((ordered.drop (offset.getD 0)).take (limit.getD 0))
    else
      Except.ok (ordered.take (limit.getD 0))
  else
    if truthyNat offset then
      Except.error DbError.offsetWithoutLimit
    else
      Except.ok ordered

/-- `Database.getEmployeeCount(searchParams)`:
`SELECT COUNT(*) as count FROM employees [WHERE ...]` with the WHERE clause
assembled exactly as in `getEmployees`. -/
def getEmployeeCount (st : DbState) (query pos : Option String) : Nat :=
  (st.rows.filter (rowMatches query pos)).length

/-- The argument record of `Database.createEmployee`. -/
structure NewEmployee where
  name : String
  email : String
  position : String
  phone : String
deriving Repr, DecidableEq

/-- `Database.createEmployee(employee)`:
`INSERT INTO employees (name, email, position, phone) VALUES (?, ?, ?, ?)`.
The UNIQUE constraint on `email` (BINARY collation, hence exact string
comparison) rejects the insert when the email already exists; otherwise the
row is appended with both timestamps defaulted to `CURRENT_TIMESTAMP` and
`this.lastID` is returned. On rejection the table is unchanged. -/
def createEmployee (now : Nat) (e : NewEmployee) (st : DbState) :
    DbState × Except DbError Nat :=
  if st.rows.any (fun r => r.email == e.email) then
    (st, Except.error DbError.uniqueEmail)
  else
    let row : Employee :=
      { id := st.nextId, name := e.name, email := e.email,
        position := e.position, phone := e.phone,
        created_at := now, updated_at := now }
    ({ rows := st.rows ++ [row], nextId := st.nextId + 1 }, Except.ok st.nextId)

/-- `Database.getEmployeeById(id)`:
`SELECT * FROM employees WHERE id = ?`, resolving `row || null`. -/
def getEmployeeById (id : Nat) (st : DbState) : Option Employee :=
  st.rows.find? (fun r => r.id == id)

/-- The argument record of `Database.updateEmployee`; `none` models an
absent (`undefined`) key, which `Object.keys(...).filter(!== undefined)`
excludes from the SET clause. -/
structure EmployeeUpdates where
  name : Option String := none
  email : Option String := none
  position : Option String := none
  phone : Option String := none
deriving Repr, DecidableEq

/-- Whether at least one field survives the `!== undefined` filter. -/
def hasUpdateField (u : EmployeeUpdates) : Bool :=
  u.name.isSome || u.email.isSome || u.position.isSome || u.phone.isSome

/-- Effect of the generated SET clause on the matched row: each named field
is overwritten and `updated_at = CURRENT_TIMESTAMP` is always appended. -/
def applyUpdates (now : Nat) (u : EmployeeUpdates) (r : Employee) : Employee :=
  { r with
    name := u.name.getD r.name
    email := u.email.getD r.email
    position := u.position.getD r.position
    phone := u.phone.getD r.phone
    updated_at := now }

/-- The UNIQUE constraint check performed by SQLite while executing the
UPDATE: it fires exactly when a row with the given id is actually updated to
an email held by a different row. -/
def emailConflicts (id : Nat) (u : EmployeeUpdates) (rows : List Employee) : Bool :=
  match u.email with
  | none => false
  | some e =>
    rows.any (fun r => r.id == id) &&
    rows.any (fun r => !(r.id == id) && r.email == e)

/-- `Database.updateEmployee(id, updates)`: resolves `false` without touching
storage when no field survives the `!== undefined` filter; otherwise runs
`UPDATE employees SET <fields>, updated_at = CURRENT_TIMESTAMP WHERE id = ?`
and resolves `this.changes > 0`. A UNIQUE violation on `email` rejects the
promise and leaves the table unchanged. -/
def updateEmployee (now : Nat) (id : Nat) (u : EmployeeUpdates) (st : DbState) :
    DbState × Except DbError Bool :=
  if !(hasUpdateField u) then
    (st, Except.ok false)
  else if emailConflicts id u st.rows then
    (st, Except.error DbError.uniqueEmail)
  else
    ({ st with rows := st.rows.map (fun r => if r.id == id then applyUpdates now u r else r) },
     Except.ok (st.rows.any (fun r => r.id == id)))

end Database

/-- ASCII whitespace, the relevant fragment of what
`String.prototype.trim` strips. -/
def isJsSpace (c : Char) : Bool :=
  c = ' ' || c = '\t' || c = '\n' || c = '\r' || c = '\x0b' || c = '\x0c'

/-- `String.prototype.trim()`: strip leading and trailing whitespace. -/
def jsTrim (s : String) : String :=
  String.mk ((((s.data.dropWhile isJsSpace).reverse).dropWhile isJsSpace).reverse)

/-- `String.prototype.toLowerCase()`, modelled on ASCII letters. -/
def jsToLower (s : String) : String :=
  String.mk (s.data.map lowerChar)

/-- The email normalisation `employeeData.email.trim().toLowerCase()`
performed by `EmployeeService` before every write. -/
def normEmail (email : String) : String :=
  jsToLower (jsTrim email)

namespace EmployeeService

/-- Errors thrown by `EmployeeService.createEmployee`: a storage rejection,
or the defensive `Failed to retrieve created employee` error. -/
inductive SvcError where
  | db (e : DbError)
  | retrieveFailed
deriving Repr, DecidableEq

/-- `EmployeeService.createEmployee(employeeData)`: trims all four fields,
lower-cases the email, inserts through `Database.createEmployee`, and
re-reads the stored record by the returned id. -/
def createEmployee (now : Nat) (req : Database.NewEmployee) (st : DbState) :
    DbState × Except SvcError Employee :=
  let c : Database.NewEmployee :=
    { name := jsTrim req.name, email := normEmail req.email,
      position := jsTrim req.position, phone := jsTrim req.phone }
  match Database.createEmployee now c st with
  | (st', Except.ok id) =>
    match Database.getEmployeeById id st' with
    | some r => (st', Except.ok r)
    | none => (st', Except.error SvcError.retrieveFailed)
  | (st', Except.error e) => (st', Except.error (SvcError.db e))

end EmployeeService

/-- The empty table right after `initializeTables` on a fresh database
file (AUTOINCREMENT starts at 1). -/
def emptyDb : DbState := { rows := [], nextId := 1 }

/-- A concrete create request with an upper-case email. -/
def reqJohnUpper : Database.NewEmployee :=
  { name := "John Doe", email := "JOHN@EXAMPLE.COM",
    position := "Developer", phone := "1234567890" }

/-- A concrete create request whose email differs from `reqJohnUpper`
only by letter case. -/
def reqJohnLower : Database.NewEmployee :=
  { name := "Jane Doe", email := "john@example.com",
    position := "Designer", phone := "0987654321" }

/-- The character class `[\s\-\(\)]` removed by `phone.replace(/[\s\-\(\)]/g, "")`
in both phone validators. -/
def isStrippedChar (c : Char) : Bool :=
  isJsSpace c || c = '-' || c = '(' || c = ')'

/-- The stripped phone string both validators test against the regex. -/
def cleanPhone (s : String) : List Char :=
  s.data.filter (fun c => !(isStrippedChar c))

/-- The character class `[\d]`. -/
def isDigitChar (c : Char) : Bool :=
  '0' ≤ c && c ≤ '9'

/-- The character class `[1-9]`. -/
def isNonZeroDigit (c : Char) : Bool :=
  '1' ≤ c && c ≤ '9'

/-- The anchored regex `^[\+]?[1-9][\d]{0,15}$` shared by the backend
middleware and the frontend validator, evaluated on a character list. -/
def phoneRegexTest (s : List Char) : Bool :=
  match s with
  | [] => false
  | c :: rest =>
    match (if c = '+' then rest else s) with
    | [] => false
    | d :: ds => isNonZeroDigit d && ds.all isDigitChar && decide (ds.length ≤ 15)

namespace Validation

/-- `isValidPhone` of the backend middleware
(`backend/src/middleware/validation.ts`): the stripped phone must match the
regex; there is no minimum-length requirement. -/
def isValidPhone (phone : String) : Bool :=
  phoneRegexTest (cleanPhone phone)

end Validation

namespace EmployeeValidator

/-- `EmployeeValidator.isValidPhone` of the frontend: the stripped phone
must match the same regex and be at least 10 characters long. -/
def isValidPhone (phone : String) : Bool :=
  phoneRegexTest (cleanPhone phone) && decide (10 ≤ (cleanPhone phone).length)

end EmployeeValidator

/-- The language denoted by the regex `^\+?[1-9]\d{0,15}$`, stated
structurally: an optional leading plus, then a nonzero digit, then at most
15 further digits. -/
def phoneShape (s : List Char) : Prop :=
  ∃ opt d ds, s = opt ++ d :: ds ∧ (opt = [] ∨ opt = ['+']) ∧
    isNonZeroDigit d = true ∧ (∀ c ∈ ds, isDigitChar c = true) ∧ ds.length ≤ 15

/-- Spec-side predicate, written after the claim text: after ASCII
lower-casing (the documented SQLite `LIKE` case handling), the query occurs
as a substring of the name, the email, or the phone. -/
def ciSubstringMatch (q : String) (e : Employee) : Bool :=
  decide ((q.data.map lowerChar) <:+: (e.name.data.map lowerChar)) ||
  decide ((q.data.map lowerChar) <:+: (e.email.data.map lowerChar)) ||
  decide ((q.data.map lowerChar) <:+: (e.phone.data.map lowerChar))

/-- A concrete row whose name is upper-case. -/
def rowJohnUpperCase : Employee :=
  { id := 1, name := "JOHN", email := "j@x.com", position := "Dev",
    phone := "111", created_at := 1, updated_at := 1 }

/-- A one-row table holding `rowJohnUpperCase`. -/
def dbJohnUpper : DbState := { rows := [rowJohnUpperCase], nextId := 2 }

/-- A concrete first sample row (older timestamp). -/
def johnRow : Employee :=
  { id := 1, name := "John Doe", email := "john@example.com",
    position := "Developer", phone := "1234567890",
    created_at := 10, updated_at := 10 }

/-- A concrete second sample row (newer timestamp). -/
def janeRow : Employee :=
  { id := 2, name := "Jane Smith", email := "jane@example.com",
    position := "Designer", phone := "0987654321",
    created_at := 20, updated_at := 20 }

/-- A two-row table used as a concrete evaluation state. -/
def sampleDb2 : DbState := { rows := [johnRow, janeRow], nextId := 3 }

namespace EmployeeController

/-- The `pagination` object of a list response. -/
structure Pagination where
  total : Nat
  limit : Nat
  offset : Nat
  hasMore : Bool
deriving Repr, DecidableEq

/-- The `data` payload of a successful list response. -/
structure ListResponse where
  employees : List Employee
  pagination : Pagination
deriving Repr, DecidableEq

/-- `EmployeeController.getEmployees(req, res)` for a request whose `limit`
and `offset` query parameters are numeric strings (a supplied numeric
string is truthy, so `limit ? parseInt(limit) : undefined` passes the
parsed value through; `some n` models a supplied value `n`, `none` an
absent parameter). The controller calls `EmployeeService.getEmployees`
(which reads the rows and then the count) and shapes the response:
`limit: searchParams.limit || totalCount`,
`offset: searchParams.offset || 0`,
`hasMore: searchParams.offset ? searchParams.offset +
(searchParams.limit || totalCount) < totalCount : false`.
A service rejection is caught and answered with a 500 error response,
modelled as `Except.error ()`. -/
def getEmployees (st : DbState) (query pos : Option String)
    (limit offset : Option Nat) : Except Unit ListResponse :=
  match Database.getEmployees st query pos limit offset with
  | Except.error _ => Except.error ()
  | Except.ok employees =>
    let totalCount := Database.getEmployeeCount st query pos
    Except.ok {
      employees := employees,
      pagination := {
        total := totalCount,
        limit := if truthyNat limit then limit.getD 0 else totalCount,
        offset := if truthyNat offset then offset.getD 0 else 0,
        hasMore :=
          if truthyNat offset then
            decide (offset.getD 0 +
              (if truthyNat limit then limit.getD 0 else totalCount) < totalCount)
          else false } }

end EmployeeController

theorem length_insertDesc (r : Employee) (l : List Employee) :
    (Database.insertDesc r l).length = l.length + 1 := by
  induction l with
  | nil => rfl
  | cons x xs ih =>
    simp only [Database.insertDesc]
    by_cases h : r.created_at ≤ x.created_at
    · simp [h, ih]
    · simp [h]

theorem length_sortRows (l : List Employee) :
    (Database.sortRows l).length = l.length := by
  induction l with
  | nil => rfl
  | cons x xs ih => simp [Database.sortRows, length_insertDesc, ih]

/-- C1: for every filter combination and table state, `getEmployeeCount`
returns exactly the number of rows `getEmployees` returns with no limit and
no offset (both assemble the identical WHERE clause, and ordering does not
change the row count). -/
theorem getEmployeeCount_eq_readMany_length (st : DbState) (q p : Option String) :
    ∃ rows, Database.getEmployees st q p none none = Except.ok rows ∧
      Database.getEmployeeCount st q p = rows.length :=
  ⟨_, rfl, (length_sortRows _).symm⟩

/-- C6: for every filter combination and table state, `getEmployees` with
`offset = 0` behaves identically to `getEmployees` with no offset, because
`if (searchParams?.offset)` treats the falsy `0` as absent. -/
theorem getEmployees_offset_zero_eq_absent (st : DbState) (q p : Option String)
    (l : Option Nat) :
    Database.getEmployees st q p l (some 0) = Database.getEmployees st q p l none := rfl

/-- C10: `limit = 0` is falsy, so `getEmployees` behaves exactly as with an
absent limit: no `LIMIT` clause is emitted and (with no offset) every
matching row is returned rather than an empty list. -/
theorem getEmployees_limit_zero_no_cap (st : DbState) (q p : Option String)
    (o : Option Nat) :
    Database.getEmployees st q p (some 0) o = Database.getEmployees st q p none o ∧
    ∃ rows, Database.getEmployees st q p (some 0) none = Except.ok rows ∧
      rows.length = Database.getEmployeeCount st q p :=
  ⟨rfl, _, rfl, length_sortRows _⟩

/-- C4: a successful update (`updateEmployee` resolves `true`) modifies
exactly the named fields of the row with the given id and refreshes its
`updated_at`; the unnamed fields, `created_at`, the `id`, and every other
row keep their prior values (positions in the table included). -/
theorem updateEmployee_frame (now id : Nat) (u : Database.EmployeeUpdates)
    (st st' : DbState)
    (h : Database.updateEmployee now id u st = (st', Except.ok true)) :
    st'.rows.length = st.rows.length ∧
    ∀ i (hi : i < st.rows.length) (hi2 : i < st'.rows.length),
      ((st.rows[i].id ≠ id → st'.rows[i] = st.rows[i]) ∧
       (st.rows[i].id = id →
         st'.rows[i].id = st.rows[i].id ∧
         st'.rows[i].created_at = st.rows[i].created_at ∧
         st'.rows[i].updated_at = now ∧
         st'.rows[i].name = u.name.getD st.rows[i].name ∧
         st'.rows[i].email = u.email.getD st.rows[i].email ∧
         st'.rows[i].position = u.position.getD st.rows[i].position ∧
         st'.rows[i].phone = u.phone.getD st.rows[i].phone)) := by
  unfold Database.updateEmployee at h
  by_cases hf : Database.hasUpdateField u = true
  · by_cases hc : Database.emailConflicts id u st.rows = true
    · simp [hf, hc] at h
    · simp only [hf, Bool.not_true, Bool.false_eq_true, if_false, hc,
        Prod.mk.injEq, Except.ok.injEq] at h
      obtain ⟨hst, _⟩ := h
      subst hst
      refine ⟨by simp, ?_⟩
      intro i hi hi2
      simp only [List.getElem_map]
      by_cases hid : st.rows[i].id = id
      · simp [hid, Database.applyUpdates]
      · simp [beq_iff_eq, hid]
  · simp [hf] at h

/-- C4 witness: applying the frame theorem at a concrete successful update
on the two-row sample table. -/
theorem updateEmployee_frame_witness :
    ((Database.updateEmployee 99 1 { name := some "x" } sampleDb2).1).rows.length =
      sampleDb2.rows.length := by
  have h := updateEmployee_frame 99 1 { name := some "x" } sampleDb2
    (Database.updateEmployee 99 1 { name := some "x" } sampleDb2).1 (by rfl)
  exact h.1

/-- C5: an update with an empty field subset resolves `false` without
touching storage, and an update naming a nonexistent id resolves `false`
and leaves the table unchanged. -/
theorem updateEmployee_empty_or_missing (now id : Nat)
    (u : Database.EmployeeUpdates) (st : DbState) :
    (Database.updateEmployee now id {} st = (st, Except.ok false)) ∧
    ((∀ r ∈ st.rows, r.id ≠ id) →
      Database.updateEmployee now id u st = (st, Except.ok false)) := by
  refine ⟨rfl, ?_⟩
  intro hmiss
  have hraw : st.rows.any (fun r => r.id == id) = false := by
    simp only [List.any_eq_false]
    intro r hr
    simp [beq_iff_eq, hmiss r hr]
  unfold Database.updateEmployee
  by_cases hf : Database.hasUpdateField u = true
  · have hc : Database.emailConflicts id u st.rows = false := by
      unfold Database.emailConflicts
      cases u.email with
      | none => rfl
      | some e => simp [hraw]
    have hmap : st.rows.map (fun r => if r.id = id then Database.applyUpdates now u r else r)
        = st.rows := by
      have := List.map_congr_left (l := st.rows)
        (f := fun r => if r.id = id then Database.applyUpdates now u r else r)
        (g := fun r => r)
        (by intro r hr; simp [hmiss r hr])
      simpa using this
    simp [hf, hc, hraw, hmap]
  · simp [hf]

/-- C5 witness: applying the theorem at a nonexistent id on the sample
table and at the empty update. -/
theorem updateEmployee_empty_or_missing_witness :
    Database.updateEmployee 99 42 { name := some "x" } sampleDb2 =
      (sampleDb2, Except.ok false) := by
  have h := updateEmployee_empty_or_missing 99 42 { name := some "x" } sampleDb2
  exact h.2 (by decide)

/-- C7: evaluating the code at the failing input: with an offset but no
limit, `getEmployees` emits `SELECT * FROM employees ORDER BY created_at
DESC OFFSET ?`, which SQLite rejects (the grammar only allows `OFFSET`
after `LIMIT`), so the call errors instead of returning all matching rows
except the first one. -/
theorem getEmployees_offset_without_limit_fails :
    Database.getEmployees sampleDb2 none none none (some 1) =
      Except.error DbError.offsetWithoutLimit := rfl

/-- Successful service-level creation appends exactly one row, holding the
trimmed fields and the lower-cased email, with the next AUTOINCREMENT id. -/
theorem serviceCreate_ok_rows (now : Nat) (req : Database.NewEmployee)
    (st st1 : DbState) (emp : Employee)
    (h : EmployeeService.createEmployee now req st = (st1, Except.ok emp)) :
    st1.rows = st.rows ++
      [{ id := st.nextId, name := jsTrim req.name, email := normEmail req.email,
         position := jsTrim req.position, phone := jsTrim req.phone,
         created_at := now, updated_at := now }] := by
  unfold EmployeeService.createEmployee Database.createEmployee at h
  by_cases hdup : st.rows.any (fun r => r.email == normEmail req.email) = true
  · simp [hdup] at h
  · simp only [hdup, Bool.false_eq_true, if_false] at h
    cases hfind : Database.getEmployeeById st.nextId
        { rows := st.rows ++
            [{ id := st.nextId, name := jsTrim req.name, email := normEmail req.email,
               position := jsTrim req.position, phone := jsTrim req.phone,
               created_at := now, updated_at := now }],
          nextId := st.nextId + 1 } with
    | none =>
      rw [hfind] at h
      simp at h
    | some r =>
      rw [hfind] at h
      simp only [Prod.mk.injEq, Except.ok.injEq] at h
      obtain ⟨h1, h2⟩ := h
      subst h1
      rfl

/-- When no stored row holds the normalised email, the service-level create
succeeds (the insert passes the UNIQUE check and the re-read finds the new
row). -/
theorem serviceCreate_ok_of_fresh (now : Nat) (req : Database.NewEmployee)
    (st : DbState)
    (h : (st.rows.any (fun r => r.email == normEmail req.email)) = false) :
    ∃ st2 emp, EmployeeService.createEmployee now req st = (st2, Except.ok emp) := by
  unfold EmployeeService.createEmployee Database.createEmployee
  simp only [h, Bool.false_eq_true, if_false]
  cases hfind : Database.getEmployeeById st.nextId
      { rows := st.rows ++
          [{ id := st.nextId, name := jsTrim req.name, email := normEmail req.email,
             position := jsTrim req.position, phone := jsTrim req.phone,
             created_at := now, updated_at := now }],
        nextId := st.nextId + 1 } with
  | none =>
    exfalso
    unfold Database.getEmployeeById at hfind
    rw [List.find?_eq_none] at hfind
    have hmem := hfind
      { id := st.nextId, name := jsTrim req.name, email := normEmail req.email,
        position := jsTrim req.position, phone := jsTrim req.phone,
        created_at := now, updated_at := now } (by simp)
    simp at hmem
  | some r =>
    exact ⟨_, r, rfl⟩

/-- C3: after a successful create, a second create whose email equals the
first one up to letter case (equal normalised emails) fails with the
unique-constraint violation and leaves the table unchanged, while a second
create with a case-insensitively different, not previously stored email
succeeds. -/
theorem createEmployee_duplicate_email (now1 now2 : Nat)
    (r1 r2 : Database.NewEmployee) (st st1 : DbState) (emp1 : Employee)
    (h1 : EmployeeService.createEmployee now1 r1 st = (st1, Except.ok emp1)) :
    (normEmail r2.email = normEmail r1.email →
      EmployeeService.createEmployee now2 r2 st1 =
        (st1, Except.error (EmployeeService.SvcError.db DbError.uniqueEmail))) ∧
    (normEmail r2.email ≠ normEmail r1.email →
      (∀ r ∈ st.rows, r.email ≠ normEmail r2.email) →
      ∃ st2 emp2, EmployeeService.createEmployee now2 r2 st1 = (st2, Except.ok emp2)) := by
  have hrows := serviceCreate_ok_rows now1 r1 st st1 emp1 h1
  constructor
  · intro hEq
    have hany : (st1.rows.any (fun r => r.email == normEmail r2.email)) = true := by
      rw [hrows]; simp [hEq]
    unfold EmployeeService.createEmployee Database.createEmployee
    simp [hany]
  · intro hNe hFresh
    have hany : (st1.rows.any (fun r => r.email == normEmail r2.email)) = false := by
      rw [hrows]
      simp only [List.any_append, Bool.or_eq_false_iff]
      constructor
      · simp only [List.any_eq_false]
        intro r hr
        simp [hFresh r hr]
      · simp [Ne.symm hNe]
    exact serviceCreate_ok_of_fresh now2 r2 st1 hany

/-- C3 witness: creating `JOHN@EXAMPLE.COM` into the empty table succeeds,
and a second create with `john@example.com` fails with the
unique-constraint error and leaves the table unchanged. -/
theorem createEmployee_duplicate_email_witness :
    EmployeeService.createEmployee 2 reqJohnLower
        (EmployeeService.createEmployee 1 reqJohnUpper emptyDb).1 =
      ((EmployeeService.createEmployee 1 reqJohnUpper emptyDb).1,
        Except.error (EmployeeService.SvcError.db DbError.uniqueEmail)) := by
  have h := createEmployee_duplicate_email 1 2 reqJohnUpper reqJohnLower emptyDb
    (EmployeeService.createEmployee 1 reqJohnUpper emptyDb).1
    { id := 1, name := "John Doe", email := "john@example.com",
      position := "Developer", phone := "1234567890",
      created_at := 1, updated_at := 1 } (by rfl)
  exact h.1 (by rfl)

/-- The executable regex test accepts exactly the structurally described
language of `^\+?[1-9]\d{0,15}$`. -/
theorem phoneRegexTest_iff (s : List Char) : phoneRegexTest s = true ↔ phoneShape s := by
  constructor
  · intro h
    cases s with
    | nil => simp [phoneRegexTest] at h
    | cons c rest =>
      by_cases hc : c = '+'
      · subst hc
        cases rest with
        | nil => simp [phoneRegexTest] at h
        | cons d ds =>
          simp [phoneRegexTest] at h
          exact ⟨['+'], d, ds, rfl, Or.inr rfl, h.1.1, h.1.2, h.2⟩
      · simp [phoneRegexTest, hc] at h
        exact ⟨[], c, rest, rfl, Or.inl rfl, h.1.1, h.1.2, h.2⟩
  · rintro ⟨opt, d, ds, hs, hopt, hd, hds, hlen⟩
    have hdp : d ≠ '+' := by
      intro hdp
      rw [hdp] at hd
      exact absurd hd (by decide)
    cases hopt with
    | inl h0 =>
      subst h0
      simp only [List.nil_append] at hs
      subst hs
      simp [phoneRegexTest, hdp, hd, hlen]
      exact hds
    | inr h1 =>
      subst h1
      simp only [List.cons_append, List.nil_append] at hs
      subst hs
      simp [phoneRegexTest, hd, hlen]
      exact hds

/-- C8 (amended): the backend middleware accepts a phone iff its stripped
form matches `^\+?[1-9]\d{0,15}$` (with no minimum-length requirement),
while the frontend validator additionally requires the stripped form to be
at least 10 characters long. -/
theorem isValidPhone_characterization (phone : String) :
    (Validation.isValidPhone phone = true ↔ phoneShape (cleanPhone phone)) ∧
    (EmployeeValidator.isValidPhone phone = true ↔
      (phoneShape (cleanPhone phone) ∧ 10 ≤ (cleanPhone phone).length)) := by
  constructor
  · exact phoneRegexTest_iff (cleanPhone phone)
  · simp only [EmployeeValidator.isValidPhone, Bool.and_eq_true, decide_eq_true_eq]
    exact and_congr (phoneRegexTest_iff (cleanPhone phone)) Iff.rfl

/-- C8 counterexample: the backend validation middleware accepts the
5-digit phone `12345` even though its stripped form is shorter than 10
characters, so the claimed minimum-length condition is not enforced before
a request reaches the repository. -/
theorem isValidPhone_length_cex :
    Validation.isValidPhone "12345" = true ∧ (cleanPhone "12345").length < 10 := by
  decide

/-- A wildcard-free pattern followed by `%` matches exactly the strings
whose ASCII lower-casing starts with the lower-cased pattern. -/
theorem like_lit (q s : List Char) (hq : ∀ c ∈ q, c ≠ '%' ∧ c ≠ '_') :
    likeMatch (q ++ ['%']) s = true ↔ (q.map lowerChar) <+: (s.map lowerChar) := by
  induction q generalizing s with
  | nil =>
    simp [likeMatch]
  | cons a q ih =>
    obtain ⟨ha1, ha2⟩ := hq a (List.mem_cons_self a q)
    have hq2 : ∀ c ∈ q, c ≠ '%' ∧ c ≠ '_' := fun c hc => hq c (List.mem_cons_of_mem a hc)
    cases s with
    | nil =>
      simp [likeMatch, ha1]
    | cons c t =>
      simp only [List.cons_append, List.map_cons, List.cons_prefix_cons]
      simp [likeMatch, ha1, ha2, ih t hq2]

/-- The pattern `` `%q%` `` for a wildcard-free `q` matches exactly the
strings whose ASCII lower-casing contains the lower-cased `q` as an
infix. -/
theorem like_contains (q s : List Char) (hq : ∀ c ∈ q, c ≠ '%' ∧ c ≠ '_') :
    likeMatch ('%' :: (q ++ ['%'])) s = true ↔
      (q.map lowerChar) <:+: (s.map lowerChar) := by
  have hunf : likeMatch ('%' :: (q ++ ['%'])) s =
      s.tails.any (fun t => likeMatch (q ++ ['%']) t) := by
    simp [likeMatch]
  rw [hunf, List.any_eq_true]
  constructor
  · rintro ⟨t, htmem, hmt⟩
    rw [List.mem_tails] at htmem
    rw [List.infix_iff_prefix_suffix]
    exact ⟨t.map lowerChar, (like_lit q t hq).mp hmt, htmem.map lowerChar⟩
  · intro h
    rw [List.infix_iff_prefix_suffix] at h
    obtain ⟨w, hpre, hsuf⟩ := h
    obtain ⟨u, hu⟩ := hsuf
    obtain ⟨l₁, l₂, hs12, hm1, hm2⟩ := List.map_eq_append_iff.mp hu.symm
    refine ⟨l₂, ?_, (like_lit q l₂ hq).mpr (by rw [hm2]; exact hpre)⟩
    rw [List.mem_tails]
    exact ⟨l₁, hs12.symm⟩

/-- C2 (amended): with a free-text query containing no SQL `LIKE` wildcard
(`%` or `_`), `getEmployees` with no limit and no offset returns exactly
the ordered rows in which the query occurs as an ASCII-case-insensitive
substring of name, email, or phone (SQLite `LIKE` is case-insensitive, so
plain case-sensitive substring containment does not describe the result),
ANDed with the exact position filter when one is supplied. -/
theorem getEmployees_query_ci_substring (st : DbState) (q : String)
    (p : Option String) (hq : ∀ c ∈ q.data, c ≠ '%' ∧ c ≠ '_') :
    Database.getEmployees st (some q) p none none =
      Except.ok (Database.sortRows (st.rows.filter (fun e =>
        ciSubstringMatch q e &&
        (if truthyStr p then e.position == p.getD "" else true)))) := by
  have hpt : ∀ e ∈ st.rows, Database.rowMatches (some q) p e =
      (ciSubstringMatch q e &&
        (if truthyStr p then e.position == p.getD "" else true)) := by
    intro e _
    by_cases hq0 : q = ""
    · subst hq0
      simp [Database.rowMatches, truthyStr, ciSubstringMatch]
    · have htq : truthyStr (some q) = true := by simp [truthyStr, hq0]
      have hlike : ∀ x : String, likeMatch ('%' :: (q.data ++ ['%'])) x.data =
          decide ((q.data.map lowerChar) <:+: (x.data.map lowerChar)) := by
        intro x
        rw [Bool.eq_iff_iff]
        simp only [decide_eq_true_eq]
        exact like_contains q.data x.data hq
      simp [Database.rowMatches, htq, Database.likeRow, likePat,
        ciSubstringMatch, hlike]
  have hstep : Database.getEmployees st (some q) p none none =
      Except.ok (Database.sortRows (st.rows.filter (Database.rowMatches (some q) p))) := rfl
  rw [hstep, List.filter_congr hpt]

/-- C2 witness: applying the theorem to the one-row table with the
wildcard-free query `john`; the upper-case row is returned. -/
theorem getEmployees_query_ci_substring_witness :
    Database.getEmployees dbJohnUpper (some "john") none none none =
      Except.ok [rowJohnUpperCase] := by
  have h := getEmployees_query_ci_substring dbJohnUpper "john" none (by decide)
  exact h.trans (by rfl)

/-- C2 counterexample: querying `john` returns the row named `JOHN` even
though `john` is not a case-sensitive substring of any of its three
searched fields, so the claim as stated (plain substring containment)
is false. -/
theorem getEmployees_query_case_cex :
    Database.getEmployees dbJohnUpper (some "john") none none none =
      Except.ok [rowJohnUpperCase] ∧
    ¬("john".data <:+: "JOHN".data) ∧
    ¬("john".data <:+: "j@x.com".data) ∧
    ¬("john".data <:+: "111".data) := by
  refine ⟨rfl, by decide, by decide, by decide⟩

/-- C9 (amended): whenever the controller produces a success response, its
`hasMore` flag equals `offset + limit < total` computed from the reported
pagination fields exactly when a nonzero offset parameter was supplied, and
is `false` when the offset was absent or `0` (the parsed `0` is falsy in
`searchParams.offset ? ... : false`); the reported total is the filtered
row count. -/
theorem controller_hasMore (st : DbState) (q p : Option String)
    (l o : Option Nat) (resp : EmployeeController.ListResponse)
    (h : EmployeeController.getEmployees st q p l o = Except.ok resp) :
    (resp.pagination.hasMore =
      (truthyNat o &&
        decide (resp.pagination.offset + resp.pagination.limit <
          resp.pagination.total))) ∧
    resp.pagination.total = Database.getEmployeeCount st q p := by
  unfold EmployeeController.getEmployees at h
  cases hdb : Database.getEmployees st q p l o with
  | error e => rw [hdb] at h; simp at h
  | ok emps =>
    rw [hdb] at h
    simp only [Except.ok.injEq] at h
    subst h
    constructor
    · by_cases ho : truthyNat o = true
      · simp [ho]
      · rw [Bool.not_eq_true] at ho
        simp [ho]
    · rfl

/-- C9 witness: applying the theorem to a concrete request with
`limit = 1`, `offset = 1` over the two-row table. -/
theorem controller_hasMore_witness :
    ({ employees := [johnRow],
       pagination := { total := 2, limit := 1, offset := 1, hasMore := false } } :
        EmployeeController.ListResponse).pagination.hasMore =
      (truthyNat (some 1) && decide ((1 : Nat) + 1 < 2)) := by
  have h := controller_hasMore sampleDb2 none none (some 1) (some 1)
    { employees := [johnRow],
      pagination := { total := 2, limit := 1, offset := 1, hasMore := false } }
    (by rfl)
  exact h.1

/-- C9 counterexample: a request that supplies `offset = 0` and `limit = 1`
over a three-matching-row table (here total 2 with limit 1 suffices)
receives `hasMore = false` although `offset + limit < total` holds, so the
claimed formula does not apply to a supplied offset of `0`. -/
theorem controller_hasMore_offset_zero_cex :
    EmployeeController.getEmployees sampleDb2 none none (some 1) (some 0) =
      Except.ok { employees := [janeRow],
                  pagination := { total := 2, limit := 1, offset := 0,
                                  hasMore := false } } ∧
    (0 : Nat) + 1 < 2 := ⟨rfl, by decide⟩
